import Mathlib

/-!
Verification development for the transaction-appending pipeline of a Waves
blockchain node (package `state`, file defining `txAppender`).

The Go source is shallowly embedded: every function of the pipeline that the
claims touch (`checkDuplicateTxIdsImpl`, `checkDuplicateTxIds`,
`checkProtobufVersion`, `checkTransactionScripts`, `checkScriptsLimits`,
`countExchangeScriptsRuns`, `handleExchange`, `checkTxFees`, `handleInvoke`,
`handleFallible`, `handleDefaultTransaction`, `commitTxApplication`,
`appendTx`, `validateNextTx`, `reset`) is translated into a computable Lean
function.  External collaborators that live outside this file's source
(script VM, diff applier, block differ, storage, feature store) are modelled
as oracle fields of an `Env` record: each oracle stands for the value the
collaborator call returns during the single append under consideration.
Mutable state of the `txAppender` (recent-ID set, counters, working diff
storage, written transactions) is an explicit `St` record, and every
observable collaborator call is additionally recorded in an effect trace so
that claims about *which* operations run (and in which mode) are statable.
-/

/-- Transaction kinds distinguished by the dispatch code.  Kinds the source
only ever meets in its `default` branches are collapsed into `transfer` /
`other`. -/
inductive TxType where
  | genesis
  | payment
  | transfer
  | createAlias
  | exchange
  | invokeScript
  | invokeExpression
  | ethereumMetamask
  | setAssetScript
  | other
deriving DecidableEq, Repr

/-- Resolved kind of an Ethereum transaction
(`proto.EthereumTransferWavesTxKind`, `proto.EthereumTransferAssetsErc20TxKind`,
`proto.EthereumInvokeScriptTxKind`). -/
inductive EthKind where
  | transferWaves
  | transferAssets
  | invoke
deriving DecidableEq, Repr

/-- Errors, keeping the wrapping structure used by the source:
`errors.New` / `errors.Errorf` become `emsg`, `proto.NewInfoMsg` becomes
`info`, `errs.NewAliasTaken` becomes `aliasTaken`, `errs.Extend` becomes
`extend` and `errors.Wrap` / `errors.Wrapf` becomes `wrap`.  Formatted
payloads (ids, heights) are dropped from the message text. -/
inductive Err where
  | emsg (s : String) : Err
  | info (e : Err) : Err
  | aliasTaken (e : Err) : Err
  | extend (e : Err) (s : String) : Err
  | wrap (e : Err) (s : String) : Err
deriving DecidableEq, Repr

/-- Where a `diffApplier.validateTxDiff` call is issued from. -/
inductive ValidationSite where
  | feeCheck
  | fallibleSuccess
  | append
deriving DecidableEq, Repr

/-- Observable collaborator calls, recorded in order of execution. -/
inductive Effect where
  | calledAccountScriptTx
  | calledOrderScript (n : Nat)
  | calledAssetScript (asset : Nat)
  | appliedInvokeScript
  | validatedTxDiff (site : ValidationSite) (d : Nat)
  | savedTxDiff (d : Nat)
  | performedTx
  | wroteTxToMem (id : Nat) (failed : Bool)
  | wroteTxDurable (id : Nat) (failed : Bool)
  | countedMinerFee
  | warnedScriptsLimits
deriving DecidableEq, Repr

/-- True for the effects that record a script execution
(account verifier, order verifier, or asset script). -/
def Effect.isScriptCall : Effect → Bool
  | Effect.calledAccountScriptTx => true
  | Effect.calledOrderScript _ => true
  | Effect.calledAssetScript _ => true
  | _ => false

/-- True for any `validateTxDiff` call, whichever site issued it. -/
def Effect.isDiffValidation : Effect → Bool
  | Effect.validatedTxDiff _ _ => true
  | _ => false

/-- The part of `settings.BlockchainSettings` the pipeline reads. -/
structure BlockchainSettings where
  stolenAliasesWindowTimeStart : Nat
  stolenAliasesWindowTimeEnd : Nat
deriving DecidableEq, Repr

/-- Resolved feature-activation flags
(`a.stor.features.newestIsActivated(...)` results). -/
structure Features where
  smartAccounts : Bool
  smartAccountTrading : Bool
  ride4DApps : Bool
  rideV5 : Bool
  rideV6 : Bool
  blockV5 : Bool
deriving DecidableEq, Repr

/-- A transaction, keeping only the observables the pipeline reads:
its kind tag, its content-derived ID, and whether it uses the protobuf
wire format. -/
structure Tx where
  typ : TxType
  id : Nat
  isProtobuf : Bool
deriving DecidableEq, Repr

/-- The part of `txCheckerData` the pipeline reads: the list of smart assets
whose scripts must run for this transaction. -/
structure CheckerData where
  smartAssets : List Nat
deriving DecidableEq, Repr

/-- Balance changes of one transaction (`txBalanceChanges`): the diff is an
abstract handle (its arithmetic lives in the diff engine, an external
collaborator), together with the touched addresses. -/
structure TxBalanceChanges where
  diff : Nat
  addresses : List Nat
deriving DecidableEq, Repr

/-- Result of `sc.callAssetScript`: a possible hard error and the boolean
script outcome (`res.Result()`). -/
structure ScriptRes where
  err : Option Err
  result : Bool
deriving DecidableEq, Repr

/-- Result of an invoke-script application; its payload is opaque to the
appender, which only hands it to `performTx`. -/
inductive InvocationResult where
  | mk
deriving DecidableEq, Repr

/-- Go struct `applicationResult`. -/
structure ApplicationResult where
  status : Bool
  totalScriptsRuns : Nat
  changes : TxBalanceChanges
  checkerData : CheckerData
deriving DecidableEq, Repr

/-- Go constructor `newApplicationResult` (all fields must be initialized). -/
def newApplicationResult (status : Bool) (totalScriptsRuns : Nat)
    (changes : TxBalanceChanges) (checkerData : CheckerData) : ApplicationResult :=
  ⟨status, totalScriptsRuns, changes, checkerData⟩

/-- The fields of `appendTxParams` the modelled claims read.  The remaining
fields (checker info, channels, miner public key, ride flags) configure
collaborators that are oracles here. -/
structure AppendTxParams where
  acceptFailed : Bool
  blockV5Activated : Bool
  validatingUtx : Bool
  blockTimestamp : Nat
deriving DecidableEq, Repr

/-- Go struct `fallibleValidationParams` (embeds `appendTxParams`). -/
structure FallibleValidationParams where
  params : AppendTxParams
  senderScripted : Bool
deriving DecidableEq, Repr

/-- Oracle environment: one field per external collaborator call the
pipeline can make during the append of a single transaction.  Each field is
the value the corresponding Go call returns. -/
structure Env where
  settings : BlockchainSettings
  features : Features
  maxScriptsComplexityInBlock : Bool → Nat
  maxScriptsRunsInBlock : Nat
  currentBlockTimestamp : Nat
  buildApiData : Bool
  accountHasVerifier : Bool
  verifySigResult : Option Err
  accountScriptErr : Option Err
  orderScripted : Nat → Bool
  orderScriptErr : Nat → Option Err
  checkTxResult : Except Err CheckerData
  assetScript : Nat → ScriptRes
  createTransactionDiff : Except Err TxBalanceChanges
  createFailedTransactionDiff : Except Err TxBalanceChanges
  exchangeFeeValidationDiff : Except Err TxBalanceChanges
  invokeScriptFeeDiff : Except Err TxBalanceChanges
  invokeExpressionFeeDiff : Except Err TxBalanceChanges
  ethereumInvokeFeeDiff : Except Err TxBalanceChanges
  validateTxDiff : Nat → List Nat → Option Err
  applyInvokeScript : Except Err (InvocationResult × ApplicationResult)
  performTxResult : Option Err
  countMinerFeeResult : Option Err
  resolveEthKind : Except Err EthKind

/-- Mutable state of the `txAppender` plus the storage it writes through,
and the effect trace. -/
structure St where
  recentTxIds : List Nat
  totalScriptsRuns : Nat
  totalComplexity : Nat
  recentTxComplexity : Nat
  diffStor : List Nat
  durableTxs : List (Nat × Bool)
  memTxs : List (Nat × Bool)
  blockDifferFees : List Nat
  apiIndex : List (Nat × Nat)
  trace : List Effect
deriving DecidableEq, Repr

/-- The duplicate-ID rejection built by `checkDuplicateTxIdsImpl`:
`proto.NewInfoMsg(errors.Errorf("transaction with ID ... already in state"))`. -/
def duplicateTxIdError : Err :=
  Err.info (Err.emsg "transaction with ID already in state")

/-- Go `checkDuplicateTxIdsImpl` (lines 117-127): check the transient
recent-ID set first, then fall back to the durable storage lookup
(`a.rw.readTransaction`). -/
def checkDuplicateTxIdsImpl (durableTxIds : List Nat) (id : Nat)
    (recentIds : List Nat) : Option Err :=
  if id ∈ recentIds then some duplicateTxIdError
  else if id ∈ durableTxIds then some duplicateTxIdError
  else none

/-- Go `checkDuplicateTxIds` (lines 129-151): Payment transactions are
exempt; CreateAlias transactions are exempt inside the stolen-aliases time
window; a duplicate CreateAlias outside the window is reported as
`errs.NewAliasTaken`. -/
def checkDuplicateTxIds (settings : BlockchainSettings) (durableTxIds : List Nat)
    (tx : Tx) (recentIds : List Nat) (timestamp : Nat) : Option Err :=
  if tx.typ = TxType.payment then none
  else if tx.typ = TxType.createAlias
      ∧ settings.stolenAliasesWindowTimeStart ≤ timestamp
      ∧ timestamp ≤ settings.stolenAliasesWindowTimeEnd then none
  else
    match checkDuplicateTxIdsImpl durableTxIds tx.id recentIds with
    | some e =>
      if tx.typ = TxType.createAlias then some (Err.aliasTaken e) else some e
    | none => none

/-- Go `checkProtobufVersion` (lines 179-187). -/
def checkProtobufVersion (tx : Tx) (blockV5Activated : Bool) : Option Err :=
  if tx.isProtobuf = false then none
  else if blockV5Activated = false then
    some (Err.emsg "bad transaction version before blockV5 activation")
  else none

/-- Go `checkScriptsLimits` (lines 263-299).  Returns the error the call
yields plus whether the warning-only branch fired (the source logs a warning
there and returns nil). -/
def checkScriptsLimits (env : Env) (totalComplexity scriptsRuns : Nat) :
    Option Err × Bool :=
  if env.features.ride4DApps then
    let maxBlockComplexity := env.maxScriptsComplexityInBlock env.features.rideV5
    if totalComplexity > maxBlockComplexity then
      if env.features.rideV6 then
        (some (Err.emsg "complexity of scripts in block exceeds limit"), false)
      else
        (none, true)
    else (none, false)
  else if env.features.smartAccounts then
    if scriptsRuns > env.maxScriptsRunsInBlock then
      (some (Err.emsg "more scripts runs in block than allowed"), false)
    else (none, false)
  else (none, false)

/-- Go `countExchangeScriptsRuns` (lines 769-780): a historical-chain quirk,
no runs are counted for exchange transactions before Ride4DApps activation. -/
def countExchangeScriptsRuns (env : Env) (scriptsRuns : Nat) : Nat :=
  if env.features.ride4DApps = false then 0 else scriptsRuns

/-- Go `reset` (lines 972-978): clears the complexity counters
(`sc.resetComplexity`), the total scripts-run counter, the recent-ID set,
the working diff storage and the block differ's fee bookkeeping. -/
def reset (st : St) : St :=
  { st with
    totalComplexity := 0
    recentTxComplexity := 0
    totalScriptsRuns := 0
    recentTxIds := []
    diffStor := []
    blockDifferFees := [] }

/-- The smart-asset loop of Go `checkTransactionScripts` (lines 245-259):
each smart asset's script is called; an error or a negative result aborts;
the run is counted except for a `SetAssetScript` transaction's own script
before Ride4DApps activation (the `continue` exception). -/
def assetScriptsRunsLoop (env : Env) (tx : Tx) (ride4DAppsActivated : Bool) :
    Nat → List Nat → List Effect × Except Err Nat
  | scriptsRuns, [] => ([], Except.ok scriptsRuns)
  | scriptsRuns, asset :: rest =>
    match (env.assetScript asset).err with
    | some e => ([Effect.calledAssetScript asset], Except.error (Err.extend e "callAssetScript"))
    | none =>
      if (env.assetScript asset).result then
        let runsNext :=
          if tx.typ = TxType.setAssetScript ∧ ride4DAppsActivated = false then scriptsRuns
          else scriptsRuns + 1
        let step := assetScriptsRunsLoop env tx ride4DAppsActivated runsNext rest
        (Effect.calledAssetScript asset :: step.1, step.2)
      else
        ([Effect.calledAssetScript asset],
         Except.error (Err.extend (Err.emsg "negative asset script result") "callAssetScript"))

/-- Go `checkTransactionScripts` (lines 225-261): optional account verifier
script, state checks (`checkTx`), then each smart-asset script, returning
the scripts-run count and the checker data. -/
def checkTransactionScripts (env : Env) (tx : Tx) (accountScripted : Bool) :
    List Effect × Except Err (Nat × CheckerData) :=
  let acct : List Effect × Except Err Nat :=
    if accountScripted then
      match env.accountScriptErr with
      | some e =>
        ([Effect.calledAccountScriptTx], Except.error (Err.extend e "callAccountScriptWithTx"))
      | none => ([Effect.calledAccountScriptTx], Except.ok 1)
    else ([], Except.ok 0)
  match acct with
  | (fx, Except.error e) => (fx, Except.error e)
  | (fx, Except.ok scriptsRuns) =>
    match env.checkTxResult with
    | Except.error e => (fx, Except.error e)
    | Except.ok checkerData =>
      let step := assetScriptsRunsLoop env tx env.features.ride4DApps scriptsRuns checkerData.smartAssets
      match step.2 with
      | Except.error e => (fx ++ step.1, Except.error e)
      | Except.ok runs => (fx ++ step.1, Except.ok (runs, checkerData))

/-- Go `checkTxFees` (lines 189-222): build the fee-validation diff for the
fallible kind at hand, then validate it against the working diff storage. -/
def checkTxFees (env : Env) (diffStor : List Nat) (tx : Tx) : List Effect × Option Err :=
  let feeChanges : Except Err TxBalanceChanges :=
    match tx.typ with
    | TxType.exchange => env.exchangeFeeValidationDiff
    | TxType.invokeScript => env.invokeScriptFeeDiff
    | TxType.invokeExpression => env.invokeExpressionFeeDiff
    | TxType.ethereumMetamask => env.ethereumInvokeFeeDiff
    | _ => Except.error (Err.emsg "failed to check tx fees: wrong tx type")
  match feeChanges with
  | Except.error e => ([], some e)
  | Except.ok changes =>
    ([Effect.validatedTxDiff ValidationSite.feeCheck changes.diff],
     env.validateTxDiff changes.diff diffStor)

/-- The `a.ia.applyInvokeScript` call made by Go `handleInvoke`. -/
def applyInvokeScriptStep (env : Env) :
    List Effect × Except Err (Option InvocationResult × ApplicationResult) :=
  match env.applyInvokeScript with
  | Except.error e => ([Effect.appliedInvokeScript], Except.error e)
  | Except.ok (ir, ar) => ([Effect.appliedInvokeScript], Except.ok (some ir, ar))

/-- Go `handleInvoke` (lines 742-767).  `ethKind` is the `TxKind` that
`appendTx` resolved and stored on an Ethereum transaction before entering
the fallible path (`none` when the transaction is not an Ethereum one). -/
def handleInvoke (env : Env) (tx : Tx) (ethKind : Option EthKind) :
    List Effect × Except Err (Option InvocationResult × ApplicationResult) :=
  match tx.typ with
  | TxType.invokeScript => applyInvokeScriptStep env
  | TxType.invokeExpression => applyInvokeScriptStep env
  | TxType.ethereumMetamask =>
    match ethKind with
    | some EthKind.invoke => applyInvokeScriptStep env
    | _ => ([], Except.error (Err.emsg "unexpected ethereum tx kind"))
  | _ => ([], Except.error (Err.emsg "failed to handle invoke: wrong type of transaction"))

/-- The order-script block of Go `handleExchange` (lines 799-828): when
SmartAccountTrading is active, each scripted order's account script must
pass, counting one run per scripted order. -/
def exchangeOrdersScripts (env : Env) (scriptsRuns : Nat) : List Effect × Except Err Nat :=
  if env.features.smartAccountTrading then
    let step1 : List Effect × Except Err Nat :=
      if env.orderScripted 1 then
        match env.orderScriptErr 1 with
        | some e =>
          ([Effect.calledOrderScript 1], Except.error (Err.wrap e "script failure on first order"))
        | none => ([Effect.calledOrderScript 1], Except.ok (scriptsRuns + 1))
      else ([], Except.ok scriptsRuns)
    match step1 with
    | (fx, Except.error e) => (fx, Except.error e)
    | (fx, Except.ok runs) =>
      if env.orderScripted 2 then
        match env.orderScriptErr 2 with
        | some e =>
          (fx ++ [Effect.calledOrderScript 2],
           Except.error (Err.wrap e "script failure on second order"))
        | none => (fx ++ [Effect.calledOrderScript 2], Except.ok (runs + 1))
      else (fx, Except.ok runs)
  else ([], Except.ok scriptsRuns)

/-- The smart-asset loop and tail of Go `handleExchange` (lines 852-872):
an asset-script error is a hard reject unless accepting failed transactions;
an error or a negative result yields the failed diff; when every script
passes and failed transactions are accepted, the successful diff is
additionally validated for negative balances, a failure there again
yielding the failed diff. -/
def exchangeAssetsLoop (env : Env) (diffStor : List Nat) (acceptFailed : Bool)
    (scriptsRuns : Nat) (checkerData : CheckerData)
    (failedChanges successfulChanges : TxBalanceChanges) :
    List Nat → List Effect × Except Err ApplicationResult
  | [] =>
    if acceptFailed then
      match env.validateTxDiff successfulChanges.diff diffStor with
      | some _ =>
        ([Effect.validatedTxDiff ValidationSite.fallibleSuccess successfulChanges.diff],
         Except.ok (newApplicationResult false scriptsRuns failedChanges checkerData))
      | none =>
        ([Effect.validatedTxDiff ValidationSite.fallibleSuccess successfulChanges.diff],
         Except.ok (newApplicationResult true scriptsRuns successfulChanges checkerData))
    else ([], Except.ok (newApplicationResult true scriptsRuns successfulChanges checkerData))
  | asset :: rest =>
    match (env.assetScript asset).err with
    | some e =>
      if acceptFailed then
        ([Effect.calledAssetScript asset],
         Except.ok (newApplicationResult false scriptsRuns failedChanges checkerData))
      else ([Effect.calledAssetScript asset], Except.error e)
    | none =>
      if (env.assetScript asset).result then
        let step :=
          exchangeAssetsLoop env diffStor acceptFailed scriptsRuns checkerData
            failedChanges successfulChanges rest
        (Effect.calledAssetScript asset :: step.1, step.2)
      else
        ([Effect.calledAssetScript asset],
         Except.ok (newApplicationResult false scriptsRuns failedChanges checkerData))

/-- Go `handleExchange` (lines 782-873).  The accept-failed flag is first
overridden with `blockV5Activated && acceptFailed`; then the sender's
account script and both order scripts must pass, the transaction is checked
against state, script runs are counted (with the pre-Ride4DApps quirk), the
failed and successful diffs are built, and the smart-asset loop decides the
outcome. -/
def handleExchange (env : Env) (diffStor : List Nat) (tx : Tx)
    (info : FallibleValidationParams) : List Effect × Except Err ApplicationResult :=
  if tx.typ = TxType.exchange then
    let acceptFailed := info.params.blockV5Activated && info.params.acceptFailed
    let acct : List Effect × Except Err Nat :=
      if info.senderScripted then
        match env.accountScriptErr with
        | some e => ([Effect.calledAccountScriptTx], Except.error e)
        | none => ([Effect.calledAccountScriptTx], Except.ok 1)
      else ([], Except.ok 0)
    match acct with
    | (fx0, Except.error e) => (fx0, Except.error e)
    | (fx0, Except.ok runs0) =>
      match exchangeOrdersScripts env runs0 with
      | (fx1, Except.error e) => (fx0 ++ fx1, Except.error e)
      | (fx1, Except.ok runs1) =>
        match env.checkTxResult with
        | Except.error e => (fx0 ++ fx1, Except.error e)
        | Except.ok checkerData =>
          let runs2 := runs1 + checkerData.smartAssets.length
          let runs3 := countExchangeScriptsRuns env runs2
          match env.createFailedTransactionDiff with
          | Except.error e => (fx0 ++ fx1, Except.error e)
          | Except.ok failedChanges =>
            match env.createTransactionDiff with
            | Except.error e => (fx0 ++ fx1, Except.error e)
            | Except.ok successfulChanges =>
              let step :=
                exchangeAssetsLoop env diffStor acceptFailed runs3 checkerData
                  failedChanges successfulChanges checkerData.smartAssets
              (fx0 ++ fx1 ++ step.1, step.2)
  else ([], Except.error (Err.emsg "failed to convert transaction to Exchange"))

/-- Go `handleFallible` (lines 875-891): when accepting failed transactions
the fee diff is prechecked first (a hard reject on insufficiency), then the
transaction is routed to the invoke or exchange handler. -/
def handleFallible (env : Env) (diffStor : List Nat) (tx : Tx)
    (info : FallibleValidationParams) (ethKind : Option EthKind) :
    List Effect × Except Err (Option InvocationResult × ApplicationResult) :=
  let fees : List Effect × Option Err :=
    if info.params.acceptFailed then checkTxFees env diffStor tx else ([], none)
  match fees with
  | (fx, some e) => (fx, Except.error e)
  | (fx, none) =>
    match tx.typ with
    | TxType.invokeScript =>
      let step := handleInvoke env tx ethKind
      (fx ++ step.1, step.2)
    | TxType.invokeExpression =>
      let step := handleInvoke env tx ethKind
      (fx ++ step.1, step.2)
    | TxType.ethereumMetamask =>
      let step := handleInvoke env tx ethKind
      (fx ++ step.1, step.2)
    | TxType.exchange =>
      match handleExchange env diffStor tx info with
      | (fx2, Except.error e) => (fx ++ fx2, Except.error e)
      | (fx2, Except.ok ar) => (fx ++ fx2, Except.ok (none, ar))
    | _ => (fx, Except.error (Err.emsg "transaction is not fallible"))

/-- Go `handleInvokeOrExchangeTransaction` (lines 429-441): extend a
fallible-path error with context. -/
def handleInvokeOrExchangeTransaction (env : Env) (diffStor : List Nat) (tx : Tx)
    (info : FallibleValidationParams) (ethKind : Option EthKind) :
    List Effect × Except Err (Option InvocationResult × ApplicationResult) :=
  match handleFallible env diffStor tx info ethKind with
  | (fx, Except.error e) => (fx, Except.error (Err.extend e "fallible validation failed"))
  | (fx, Except.ok r) => (fx, Except.ok r)

/-- Go `handleDefaultTransaction` (lines 443-455): run scripts and state
checks, build the diff; the result always has a successful status. -/
def handleDefaultTransaction (env : Env) (tx : Tx) (accountScripted : Bool) :
    List Effect × Except Err ApplicationResult :=
  match checkTransactionScripts env tx accountScripted with
  | (fx, Except.error e) => (fx, Except.error e)
  | (fx, Except.ok (txScriptsRuns, checkerData)) =>
    match env.createTransactionDiff with
    | Except.error e => (fx, Except.error (Err.extend e "create transaction diff"))
    | Except.ok txChanges =>
      (fx, Except.ok (newApplicationResult true txScriptsRuns txChanges checkerData))

/-- Go `saveTransactionIdByAddresses` (lines 317-324): record one
address-to-transaction index entry per touched address. -/
def saveTransactionIdByAddresses (st : St) (addresses : List Nat) (txID : Nat) : St :=
  { st with apiIndex := st.apiIndex ++ addresses.map (fun a => (a, txID)) }

/-- Go `commitTxApplication` (lines 326-383): record the transaction ID in
the recent-ID set, add its script runs to the block counter, fold the
transaction's script complexity into the block total
(`sc.addRecentTxComplexity`, modelled from the spec's script-complexity
accumulator since the script caller is an external collaborator), save the
balance diff, perform the transaction only when its status is successful,
then write it to in-memory storage (pool mode) or count the miner fee and
write it durably (block mode). -/
def commitTxApplication (env : Env) (tx : Tx) (params : AppendTxParams)
    (invocationRes : Option InvocationResult) (applicationRes : ApplicationResult)
    (st : St) : St × Except Err Unit :=
  let st0 := { st with
    recentTxIds := tx.id :: st.recentTxIds
    totalScriptsRuns := st.totalScriptsRuns + applicationRes.totalScriptsRuns
    totalComplexity := st.totalComplexity + st.recentTxComplexity
    diffStor := st.diffStor ++ [applicationRes.changes.diff]
    trace := st.trace ++ [Effect.savedTxDiff applicationRes.changes.diff] }
  let perf : St × Option Err :=
    if applicationRes.status then
      ({ st0 with trace := st0.trace ++ [Effect.performedTx] },
       match env.performTxResult with
       | some e => some (Err.wrap e "failed to perform")
       | none => none)
    else (st0, none)
  match perf with
  | (st1, some e) => (st1, Except.error e)
  | (st1, none) =>
    if params.validatingUtx then
      ({ st1 with
          memTxs := st1.memTxs ++ [(tx.id, !applicationRes.status)]
          trace := st1.trace ++ [Effect.wroteTxToMem tx.id (!applicationRes.status)] },
       Except.ok ())
    else
      match env.countMinerFeeResult with
      | some e =>
        ({ st1 with trace := st1.trace ++ [Effect.countedMinerFee] },
         Except.error (Err.wrap e "failed to count miner fee"))
      | none =>
        ({ st1 with
            blockDifferFees := st1.blockDifferFees ++ [tx.id]
            durableTxs := st1.durableTxs ++ [(tx.id, !applicationRes.status)]
            trace := st1.trace ++
              [Effect.countedMinerFee, Effect.wroteTxDurable tx.id (!applicationRes.status)] },
         Except.ok ())

/-- The kind dispatch of Go `appendTx` (lines 492-551): route the
transaction to the fallible or default handler and record whether the
resulting diff still needs the immediate negative-balance validation
(the local `needToValidateBalanceDiff`).  `fallibleValidationParams` embeds
the `*appendTxParams` pointer, and on the (successful) exchange path
`handleExchange` line 788 has already written
`blockV5Activated && acceptFailed` back through it before line 507 computes
`validatingUtx && !params.acceptFailed`; the exchange arm therefore reads
the overridden flag. -/
def appendTxDispatch (env : Env) (diffStor : List Nat) (tx : Tx)
    (params : AppendTxParams) (accountScripted : Bool) :
    List Effect × Except Err (Option InvocationResult × ApplicationResult × Bool) :=
  match tx.typ with
  | TxType.invokeScript =>
    match handleInvokeOrExchangeTransaction env diffStor tx ⟨params, accountScripted⟩ none with
    | (fx, Except.error e) =>
      (fx, Except.error (Err.wrap e "failed to handle invoke or exchange transaction"))
    | (fx, Except.ok (ir, ar)) =>
      (fx, Except.ok (ir, ar, params.validatingUtx && !params.acceptFailed))
  | TxType.invokeExpression =>
    match handleInvokeOrExchangeTransaction env diffStor tx ⟨params, accountScripted⟩ none with
    | (fx, Except.error e) =>
      (fx, Except.error (Err.wrap e "failed to handle invoke or exchange transaction"))
    | (fx, Except.ok (ir, ar)) =>
      (fx, Except.ok (ir, ar, params.validatingUtx && !params.acceptFailed))
  | TxType.exchange =>
    match handleInvokeOrExchangeTransaction env diffStor tx ⟨params, accountScripted⟩ none with
    | (fx, Except.error e) =>
      (fx, Except.error (Err.wrap e "failed to handle invoke or exchange transaction"))
    | (fx, Except.ok (ir, ar)) =>
      (fx, Except.ok (ir, ar,
        params.validatingUtx && !(params.blockV5Activated && params.acceptFailed)))
  | TxType.ethereumMetamask =>
    match env.resolveEthKind with
    | Except.error e => ([], Except.error (Err.wrap e "failed to guess ethereum transaction kind"))
    | Except.ok EthKind.transferWaves =>
      match handleDefaultTransaction env tx accountScripted with
      | (fx, Except.error e) => (fx, Except.error (Err.wrap e "failed to handle ethereum transaction"))
      | (fx, Except.ok ar) => (fx, Except.ok (none, ar, params.validatingUtx))
    | Except.ok EthKind.transferAssets =>
      match handleDefaultTransaction env tx accountScripted with
      | (fx, Except.error e) => (fx, Except.error (Err.wrap e "failed to handle ethereum transaction"))
      | (fx, Except.ok ar) => (fx, Except.ok (none, ar, params.validatingUtx))
    | Except.ok EthKind.invoke =>
      match handleInvokeOrExchangeTransaction env diffStor tx ⟨params, accountScripted⟩
              (some EthKind.invoke) with
      | (fx, Except.error e) =>
        (fx, Except.error (Err.wrap e "failed to handle ethereum invoke script transaction"))
      | (fx, Except.ok (ir, ar)) => (fx, Except.ok (ir, ar, false))
  | _ =>
    match handleDefaultTransaction env tx accountScripted with
    | (fx, Except.error e) => (fx, Except.error (Err.wrap e "failed to handle transaction"))
    | (fx, Except.ok ar) => (fx, Except.ok (none, ar, params.validatingUtx))

/-- The last steps of Go `appendTx` (lines 558-580): check the
scripts-run / complexity limits against the running block totals, commit,
and store the address index entries when building API data in block mode. -/
def appendTxLimitsAndCommit (env : Env) (tx : Tx) (params : AppendTxParams)
    (invocationRes : Option InvocationResult) (appRes : ApplicationResult)
    (st : St) : St × Except Err Unit :=
  match checkScriptsLimits env (st.totalComplexity + st.recentTxComplexity)
          (st.totalScriptsRuns + appRes.totalScriptsRuns) with
  | (some e, _) => (st, Except.error (Err.extend e "check scripts limits"))
  | (none, warned) =>
    let st2 :=
      if warned then { st with trace := st.trace ++ [Effect.warnedScriptsLimits] } else st
    match commitTxApplication env tx params invocationRes appRes st2 with
    | (st3, Except.error e) => (st3, Except.error e)
    | (st3, Except.ok _) =>
      if params.validatingUtx = false ∧ env.buildApiData = true then
        (saveTransactionIdByAddresses st3 appRes.changes.addresses tx.id, Except.ok ())
      else (st3, Except.ok ())

/-- The tail of Go `appendTx` after the kind dispatch (lines 552-580):
optionally validate the resulting diff for negative balances immediately
(the `needToValidateBalanceDiff` flag), then limits check, commit and API
index. -/
def appendTxAfterDispatch (env : Env) (tx : Tx) (params : AppendTxParams)
    (invocationRes : Option InvocationResult) (appRes : ApplicationResult)
    (needToValidateBalanceDiff : Bool) (st : St) : St × Except Err Unit :=
  let vstep : St × Option Err :=
    if needToValidateBalanceDiff then
      ({ st with trace :=
           st.trace ++ [Effect.validatedTxDiff ValidationSite.append appRes.changes.diff] },
       env.validateTxDiff appRes.changes.diff st.diffStor)
    else (st, none)
  match vstep with
  | (st1, some e) => (st1, Except.error (Err.extend e "validate transaction diff"))
  | (st1, none) => appendTxLimitsAndCommit env tx params invocationRes appRes st1

/-- The body of Go `appendTx` (lines 457-581) without the deferred cleanup:
protobuf-version check, duplicate-ID check, signature and data verification
(inline in pool mode, fanned out in block mode — an oracle here), then the
kind dispatch followed by `appendTxAfterDispatch`. -/
def appendTxCore (env : Env) (tx : Tx) (params : AppendTxParams) (st : St) :
    St × Except Err Unit :=
  match checkProtobufVersion tx params.blockV5Activated with
  | some e => (st, Except.error e)
  | none =>
    match checkDuplicateTxIds env.settings (st.durableTxs.map Prod.fst) tx
            st.recentTxIds params.blockTimestamp with
    | some e => (st, Except.error (Err.extend e "check duplicate tx ids"))
    | none =>
      match env.verifySigResult with
      | some e => (st, Except.error (Err.extend e "tx signature or data verification failed"))
      | none =>
        match appendTxDispatch env st.diffStor tx params env.accountHasVerifier with
        | (fx, Except.error e) => ({ st with trace := st.trace ++ fx }, Except.error e)
        | (fx, Except.ok (invocationRes, appRes, needV)) =>
          appendTxAfterDispatch env tx params invocationRes appRes needV
            { st with trace := st.trace ++ fx }

/-- Go `appendTx` (lines 457-581): the core body plus the deferred
`sc.resetRecentTxComplexity()` that runs on every exit. -/
def appendTx (env : Env) (tx : Tx) (params : AppendTxParams) (st : St) :
    St × Except Err Unit :=
  match appendTxCore env tx params st with
  | (st1, r) => ({ st1 with recentTxComplexity := 0 }, r)

/-- The `appendTxParams` built by Go `validateNextTx` (lines 949-964):
pool mode, the caller-supplied accept-failed flag, BlockV5 resolved from the
feature store, and the current (last stable) block's header timestamp. -/
def validateNextTxParams (env : Env) (acceptFailed : Bool) : AppendTxParams :=
  { acceptFailed := acceptFailed
    blockV5Activated := env.features.blockV5
    validatingUtx := true
    blockTimestamp := env.currentBlockTimestamp }

/-- Go `validateNextTx` (lines 894-970): run the shared dispatch core in
pool mode and wrap any error as a non-fatal informational rejection
(`proto.NewInfoMsg`). -/
def validateNextTx (env : Env) (tx : Tx) (currentTimestamp parentTimestamp : Nat)
    (acceptFailed : Bool) (st : St) : St × Except Err Unit :=
  match appendTx env tx (validateNextTxParams env acceptFailed) st with
  | (st1, Except.error e) => (st1, Except.error (Err.info e))
  | (st1, Except.ok _) => (st1, Except.ok ())

/-- All feature flags off. -/
def featuresOff : Features := ⟨false, false, false, false, false, false⟩

/-- A fully passing oracle environment with all features off; concrete
scenarios below override single fields. -/
def envDefault : Env :=
  { settings := ⟨5, 10⟩
    features := featuresOff
    maxScriptsComplexityInBlock := fun _ => 1000000
    maxScriptsRunsInBlock := 100
    currentBlockTimestamp := 0
    buildApiData := false
    accountHasVerifier := false
    verifySigResult := none
    accountScriptErr := none
    orderScripted := fun _ => false
    orderScriptErr := fun _ => none
    checkTxResult := Except.ok ⟨[]⟩
    assetScript := fun _ => ⟨none, true⟩
    createTransactionDiff := Except.ok ⟨3, []⟩
    createFailedTransactionDiff := Except.ok ⟨1, []⟩
    exchangeFeeValidationDiff := Except.ok ⟨2, []⟩
    invokeScriptFeeDiff := Except.ok ⟨2, []⟩
    invokeExpressionFeeDiff := Except.ok ⟨2, []⟩
    ethereumInvokeFeeDiff := Except.ok ⟨2, []⟩
    validateTxDiff := fun _ _ => none
    applyInvokeScript := Except.ok (InvocationResult.mk, ⟨true, 1, ⟨3, []⟩, ⟨[]⟩⟩)
    performTxResult := none
    countMinerFeeResult := none
    resolveEthKind := Except.ok EthKind.transferWaves }

/-- The empty appender state. -/
def stEmpty : St := ⟨[], 0, 0, 0, [], [], [], [], [], []⟩

/-- A plain transfer transaction. -/
def txTransfer : Tx := ⟨TxType.transfer, 1, false⟩

/-- An exchange transaction. -/
def txExchange : Tx := ⟨TxType.exchange, 2, false⟩

/-- A set-asset-script transaction. -/
def txSetAssetScript : Tx := ⟨TxType.setAssetScript, 3, false⟩

/-- Block-mode append parameters (BlockV5 active, accept-failed on, as
`appendBlock` builds them after BlockV5 activation). -/
def paramsBlock : AppendTxParams := ⟨true, true, false, 0⟩

/-- A failed application result with a fee-only diff. -/
def apFailed : ApplicationResult := ⟨false, 1, ⟨1, []⟩, ⟨[]⟩⟩

/-- A protobuf-encoded transfer transaction. -/
def txProtobuf : Tx := ⟨TxType.transfer, 5, true⟩

/-- Pool-mode append parameters with accept-failed off. -/
def paramsUtx : AppendTxParams := ⟨false, true, true, 0⟩

/-- Exchange scenario: Ride4DApps active, one smart asset whose script
returns a negative result without an error. -/
def envC3 : Env :=
  { envDefault with
    features := { featuresOff with ride4DApps := true }
    checkTxResult := Except.ok ⟨[7]⟩
    assetScript := fun _ => ⟨none, false⟩ }

/-- Exchange scenario: Ride4DApps active, one smart asset whose script
call returns a hard error. -/
def envC3err : Env :=
  { envDefault with
    features := { featuresOff with ride4DApps := true }
    checkTxResult := Except.ok ⟨[7]⟩
    assetScript := fun _ => ⟨some (Err.emsg "asset script failure"), false⟩ }

/-- Fallible-validation parameters with accept-failed off (BlockV5 active). -/
def infoC3 : FallibleValidationParams := ⟨⟨false, true, false, 0⟩, false⟩

/-- Exchange scenario: Ride4DApps active, two smart assets, the first one
erroring. -/
def envC7 : Env :=
  { envDefault with
    features := { featuresOff with ride4DApps := true, blockV5 := true }
    checkTxResult := Except.ok ⟨[5, 6]⟩
    assetScript := fun a =>
      if a = 5 then ⟨some (Err.emsg "asset script failure"), false⟩ else ⟨none, true⟩ }

/-- Fallible-validation parameters with accept-failed on (BlockV5 active). -/
def infoC7 : FallibleValidationParams := ⟨⟨true, true, false, 0⟩, false⟩

/-- Fallible-validation parameters with accept-failed requested by the
caller while BlockV5 is not activated. -/
def infoC10 : FallibleValidationParams := ⟨⟨true, false, true, 0⟩, false⟩

/-- An environment whose feature store has BlockV5 inactive. -/
def envNoBlockV5 : Env := envDefault

/-- Pool-mode append parameters with accept-failed requested by the caller
while BlockV5 is not activated. -/
def paramsUtxAF : AppendTxParams := ⟨true, false, true, 0⟩

/-- A successful application result with no script runs. -/
def apSuccess : ApplicationResult := ⟨true, 0, ⟨3, []⟩, ⟨[]⟩⟩

/-- Claim C2: a transaction whose ID is already in the recent set or in
durable storage is rejected with the duplicate-ID rejection (a CreateAlias
duplicate surfacing as alias-taken), except that Payment transactions are
always exempt and CreateAlias transactions are exempt inside the
stolen-aliases window; and the recent set decides before the durable
lookup is consulted. -/
theorem c2_duplicate_rejection (settings : BlockchainSettings) (durable durable' : List Nat)
    (tx : Tx) (recent : List Nat) (ts : Nat) :
    (checkDuplicateTxIds settings durable tx recent ts = none ↔
       tx.typ = TxType.payment
       ∨ (tx.typ = TxType.createAlias ∧ settings.stolenAliasesWindowTimeStart ≤ ts
            ∧ ts ≤ settings.stolenAliasesWindowTimeEnd)
       ∨ (tx.id ∉ recent ∧ tx.id ∉ durable))
    ∧ (∀ e, checkDuplicateTxIds settings durable tx recent ts = some e →
         e = duplicateTxIdError ∨ e = Err.aliasTaken duplicateTxIdError)
    ∧ (tx.id ∈ recent →
         checkDuplicateTxIds settings durable tx recent ts
           = checkDuplicateTxIds settings durable' tx recent ts) := by
  unfold checkDuplicateTxIds checkDuplicateTxIdsImpl
  split_ifs <;> simp_all

/-- Witness for C2 at a concrete input: with the ID in the recent set the
verdict does not depend on the durable storage contents. -/
theorem c2_witness :
    checkDuplicateTxIds ⟨5, 10⟩ [1] txTransfer [1] 0
      = checkDuplicateTxIds ⟨5, 10⟩ [] txTransfer [1] 0 :=
  (c2_duplicate_rejection ⟨5, 10⟩ [1] [] txTransfer [1] 0).2.2 (by simp [txTransfer])

/-- Claim C5: with Ride4DApps active, exceeding the complexity ceiling is a
hard error exactly when RideV6 is also active, and only a warning
otherwise; before Ride4DApps, with SmartAccounts active, exceeding the
per-block scripts-run maximum is a hard error. -/
theorem c5_scripts_limits (env : Env) (totalComplexity scriptsRuns : Nat) :
    ((checkScriptsLimits env totalComplexity scriptsRuns).1 ≠ none ↔
       (env.features.ride4DApps = true
          ∧ totalComplexity > env.maxScriptsComplexityInBlock env.features.rideV5
          ∧ env.features.rideV6 = true)
       ∨ (env.features.ride4DApps = false ∧ env.features.smartAccounts = true
          ∧ scriptsRuns > env.maxScriptsRunsInBlock))
    ∧ ((checkScriptsLimits env totalComplexity scriptsRuns).2 = true ↔
       env.features.ride4DApps = true
         ∧ totalComplexity > env.maxScriptsComplexityInBlock env.features.rideV5
         ∧ env.features.rideV6 = false) := by
  unfold checkScriptsLimits
  split_ifs <;> simp_all <;> split_ifs <;> simp_all

/-- Claim C6: for a SetAssetScript transaction with one (passing) smart
asset, the triggered asset-script run contributes zero to the scripts-run
count before Ride4DApps activation and one after, all else equal, while
the script itself is executed in both cases (the call effect is present in
both traces). -/
theorem c6_setAssetScript_run_count (env : Env) (tx : Tx) (a : Nat)
    (ht : tx.typ = TxType.setAssetScript)
    (hc : env.checkTxResult = Except.ok ⟨[a]⟩)
    (hs : env.assetScript a = ⟨none, true⟩) :
    checkTransactionScripts { env with features := { env.features with ride4DApps := false } }
        tx false
      = ([Effect.calledAssetScript a], Except.ok (0, ⟨[a]⟩))
    ∧ checkTransactionScripts { env with features := { env.features with ride4DApps := true } }
        tx false
      = ([Effect.calledAssetScript a], Except.ok (1, ⟨[a]⟩)) := by
  constructor <;> simp [checkTransactionScripts, assetScriptsRunsLoop, hc, hs, ht]

/-- Witness for C6 at a concrete input. -/
theorem c6_witness :
    checkTransactionScripts
        { envDefault with
          checkTxResult := Except.ok ⟨[4]⟩
          features := { envDefault.features with ride4DApps := false } }
        txSetAssetScript false
      = ([Effect.calledAssetScript 4], Except.ok (0, ⟨[4]⟩))
    ∧ checkTransactionScripts
        { envDefault with
          checkTxResult := Except.ok ⟨[4]⟩
          features := { envDefault.features with ride4DApps := true } }
        txSetAssetScript false
      = ([Effect.calledAssetScript 4], Except.ok (1, ⟨[4]⟩)) :=
  c6_setAssetScript_run_count { envDefault with checkTxResult := Except.ok ⟨[4]⟩ }
    txSetAssetScript 4 rfl rfl rfl

/-- Claim C4: committing a failed application result still records the
transaction ID in the recent-ID set, still adds its script runs and its
recent complexity to the block counters, still saves its balance diff, and
still writes the transaction (to the in-memory pool storage in pool mode;
counting the miner fee and writing durably in block mode), but never
performs the transaction's payload state changes. -/
theorem c4_failed_commit_effects (env : Env) (tx : Tx) (params : AppendTxParams)
    (invocationRes : Option InvocationResult) (appRes : ApplicationResult) (st : St)
    (hs : appRes.status = false) (hm : env.countMinerFeeResult = none) :
    (commitTxApplication env tx params invocationRes appRes st).2 = Except.ok ()
    ∧ ((commitTxApplication env tx params invocationRes appRes st).1).recentTxIds
        = tx.id :: st.recentTxIds
    ∧ ((commitTxApplication env tx params invocationRes appRes st).1).totalScriptsRuns
        = st.totalScriptsRuns + appRes.totalScriptsRuns
    ∧ ((commitTxApplication env tx params invocationRes appRes st).1).totalComplexity
        = st.totalComplexity + st.recentTxComplexity
    ∧ ((commitTxApplication env tx params invocationRes appRes st).1).diffStor
        = st.diffStor ++ [appRes.changes.diff]
    ∧ (params.validatingUtx = true →
         ((commitTxApplication env tx params invocationRes appRes st).1).memTxs
             = st.memTxs ++ [(tx.id, true)]
         ∧ ((commitTxApplication env tx params invocationRes appRes st).1).durableTxs
             = st.durableTxs)
    ∧ (params.validatingUtx = false →
         ((commitTxApplication env tx params invocationRes appRes st).1).durableTxs
             = st.durableTxs ++ [(tx.id, true)]
         ∧ ((commitTxApplication env tx params invocationRes appRes st).1).memTxs
             = st.memTxs
         ∧ Effect.countedMinerFee ∈ ((commitTxApplication env tx params invocationRes appRes st).1).trace)
    ∧ (Effect.performedTx ∈ ((commitTxApplication env tx params invocationRes appRes st).1).trace
         ↔ Effect.performedTx ∈ st.trace) := by
  cases hu : params.validatingUtx <;> simp [commitTxApplication, hs, hm, hu]

/-- Witness for C4 at a concrete input. -/
theorem c4_witness :
    (commitTxApplication envDefault txTransfer paramsBlock none apFailed stEmpty).2
      = Except.ok ()
    ∧ ((commitTxApplication envDefault txTransfer paramsBlock none apFailed stEmpty).1).recentTxIds
        = txTransfer.id :: stEmpty.recentTxIds
    ∧ ((commitTxApplication envDefault txTransfer paramsBlock none apFailed stEmpty).1).totalScriptsRuns
        = stEmpty.totalScriptsRuns + apFailed.totalScriptsRuns
    ∧ ((commitTxApplication envDefault txTransfer paramsBlock none apFailed stEmpty).1).totalComplexity
        = stEmpty.totalComplexity + stEmpty.recentTxComplexity
    ∧ ((commitTxApplication envDefault txTransfer paramsBlock none apFailed stEmpty).1).diffStor
        = stEmpty.diffStor ++ [apFailed.changes.diff]
    ∧ (paramsBlock.validatingUtx = true →
         ((commitTxApplication envDefault txTransfer paramsBlock none apFailed stEmpty).1).memTxs
             = stEmpty.memTxs ++ [(txTransfer.id, true)]
         ∧ ((commitTxApplication envDefault txTransfer paramsBlock none apFailed stEmpty).1).durableTxs
             = stEmpty.durableTxs)
    ∧ (paramsBlock.validatingUtx = false →
         ((commitTxApplication envDefault txTransfer paramsBlock none apFailed stEmpty).1).durableTxs
             = stEmpty.durableTxs ++ [(txTransfer.id, true)]
         ∧ ((commitTxApplication envDefault txTransfer paramsBlock none apFailed stEmpty).1).memTxs
             = stEmpty.memTxs
         ∧ Effect.countedMinerFee
             ∈ ((commitTxApplication envDefault txTransfer paramsBlock none apFailed stEmpty).1).trace)
    ∧ (Effect.performedTx
         ∈ ((commitTxApplication envDefault txTransfer paramsBlock none apFailed stEmpty).1).trace
         ↔ Effect.performedTx ∈ stEmpty.trace) :=
  c4_failed_commit_effects envDefault txTransfer paramsBlock none apFailed stEmpty rfl rfl

/-- Claim C9: after `reset` the complexity accumulators, the scripts-run
counter, the recent-ID set and the working diff storage are all cleared,
and an ID that was a rejected duplicate through the recent set (and is
absent from durable storage) passes the duplicate check again. -/
theorem c9_reset (st : St) (durableTxIds : List Nat) (id : Nat)
    (hrec : id ∈ st.recentTxIds) (hdur : id ∉ durableTxIds) :
    (reset st).totalComplexity = 0 ∧ (reset st).recentTxComplexity = 0
    ∧ (reset st).totalScriptsRuns = 0 ∧ (reset st).recentTxIds = []
    ∧ (reset st).diffStor = []
    ∧ checkDuplicateTxIdsImpl durableTxIds id st.recentTxIds = some duplicateTxIdError
    ∧ checkDuplicateTxIdsImpl durableTxIds id (reset st).recentTxIds = none := by
  unfold reset checkDuplicateTxIdsImpl
  simp [hrec, hdur]

/-- Witness for C9 at a concrete input. -/
theorem c9_witness :
    (reset { stEmpty with recentTxIds := [9] }).totalComplexity = 0
    ∧ (reset { stEmpty with recentTxIds := [9] }).recentTxComplexity = 0
    ∧ (reset { stEmpty with recentTxIds := [9] }).totalScriptsRuns = 0
    ∧ (reset { stEmpty with recentTxIds := [9] }).recentTxIds = []
    ∧ (reset { stEmpty with recentTxIds := [9] }).diffStor = []
    ∧ checkDuplicateTxIdsImpl [] 9 ({ stEmpty with recentTxIds := [9] } : St).recentTxIds
        = some duplicateTxIdError
    ∧ checkDuplicateTxIdsImpl [] 9 (reset { stEmpty with recentTxIds := [9] }).recentTxIds
        = none :=
  c9_reset { stEmpty with recentTxIds := [9] } [] 9 (by simp [stEmpty]) (by simp)

/-- Helper: a successful result of the exchange smart-asset loop carries
exactly the scripts-run count the loop was entered with (the count is fixed
before the loop runs). -/
theorem exchangeAssetsLoop_ok_runs (env : Env) (ds : List Nat) (af : Bool)
    (runs : Nat) (cd : CheckerData) (fc sc : TxBalanceChanges) :
    ∀ (assets : List Nat) (r : ApplicationResult),
      (exchangeAssetsLoop env ds af runs cd fc sc assets).2 = Except.ok r →
      r.totalScriptsRuns = runs := by
  intro assets
  induction assets with
  | nil =>
    intro r h
    unfold exchangeAssetsLoop at h
    cases haf : af <;> rw [haf] at h
    · simp at h
      subst h
      rfl
    · cases hv : env.validateTxDiff sc.diff ds <;> rw [hv] at h <;> simp at h <;>
        subst h <;> rfl
  | cons a rest ih =>
    intro r h
    unfold exchangeAssetsLoop at h
    cases herr : (env.assetScript a).err with
    | some e =>
      rw [herr] at h
      cases haf : af <;> rw [haf] at h <;> simp at h
      subst h
      rfl
    | none =>
      rw [herr] at h
      cases hres : (env.assetScript a).result <;> rw [hres] at h <;> simp at h
      · subst h
        rfl
      · exact ih r h

/-- Helper: when every smart-asset script passes and failed transactions
are not accepted, the exchange asset loop runs every script and returns the
successful diff. -/
theorem exchangeAssetsLoop_allPass_false (env : Env) (ds : List Nat) (runs : Nat)
    (cd : CheckerData) (fc sc : TxBalanceChanges) :
    ∀ assets : List Nat, (∀ x ∈ assets, env.assetScript x = ⟨none, true⟩) →
      exchangeAssetsLoop env ds false runs cd fc sc assets
        = (assets.map Effect.calledAssetScript,
           Except.ok (newApplicationResult true runs sc cd)) := by
  intro assets
  induction assets with
  | nil => intro _; simp [exchangeAssetsLoop]
  | cons a rest ih =>
    intro hp
    have ha := hp a (by simp)
    have hrest : ∀ x ∈ rest, env.assetScript x = ⟨none, true⟩ :=
      fun x hx => hp x (by simp [hx])
    unfold exchangeAssetsLoop
    rw [ha]
    simp [ih hrest]

/-- Helper: when every smart-asset script passes and failed transactions
are accepted, the exchange asset loop runs every script and then validates
the successful diff, downgrading to the failed diff when the validation
fails. -/
theorem exchangeAssetsLoop_allPass_true (env : Env) (ds : List Nat) (runs : Nat)
    (cd : CheckerData) (fc sc : TxBalanceChanges) :
    ∀ assets : List Nat, (∀ x ∈ assets, env.assetScript x = ⟨none, true⟩) →
      exchangeAssetsLoop env ds true runs cd fc sc assets
        = (assets.map Effect.calledAssetScript
             ++ [Effect.validatedTxDiff ValidationSite.fallibleSuccess sc.diff],
           match env.validateTxDiff sc.diff ds with
           | some _ => Except.ok (newApplicationResult false runs fc cd)
           | none => Except.ok (newApplicationResult true runs sc cd)) := by
  intro assets
  induction assets with
  | nil =>
    intro _
    unfold exchangeAssetsLoop
    cases hv : env.validateTxDiff sc.diff ds <;> simp [hv]
  | cons a rest ih =>
    intro hp
    have ha := hp a (by simp)
    have hrest : ∀ x ∈ rest, env.assetScript x = ⟨none, true⟩ :=
      fun x hx => hp x (by simp [hx])
    unfold exchangeAssetsLoop
    rw [ha]
    simp [ih hrest]

/-- Helper: with a plain (unscripted) sender, SmartAccountTrading off and
all preparatory steps succeeding, `handleExchange` reduces to the
smart-asset loop entered with the (quirk-adjusted) scripts-run count. -/
theorem handleExchange_simple (env : Env) (ds : List Nat) (tx : Tx)
    (info : FallibleValidationParams) (cd : CheckerData) (fc sc : TxBalanceChanges)
    (ht : tx.typ = TxType.exchange)
    (hss : info.senderScripted = false)
    (htr : env.features.smartAccountTrading = false)
    (hcd : env.checkTxResult = Except.ok cd)
    (hfc : env.createFailedTransactionDiff = Except.ok fc)
    (hsc : env.createTransactionDiff = Except.ok sc) :
    handleExchange env ds tx info
      = exchangeAssetsLoop env ds (info.params.blockV5Activated && info.params.acceptFailed)
          (countExchangeScriptsRuns env (0 + cd.smartAssets.length)) cd fc sc
          cd.smartAssets := by
  simp [handleExchange, exchangeOrdersScripts, ht, hss, htr, hcd, hfc, hsc]

/-- Claim C3 counterexample: with accept-failed inactive (the caller passed
`acceptFailed=false`), an asset script returning a negative result without
an error does NOT hard-reject the exchange — it yields a committed failed
application result, contradicting the claim that a negative result
hard-rejects unless accept-failed is active. -/
theorem c3_counterexample :
    (handleExchange envC3 [] txExchange infoC3).2
      = Except.ok (newApplicationResult false 1 ⟨1, []⟩ ⟨[7]⟩)
    ∧ (infoC3.params.blockV5Activated && infoC3.params.acceptFailed) = false :=
  ⟨rfl, rfl⟩

/-- Claim C3 (amended): the sender account script and both order scripts
must pass or the exchange is hard-rejected; after structural checks, an
asset-script ERROR hard-rejects when accept-failed is inactive and yields
the failed diff when it is active, while a negative asset-script result
without an error always yields the failed diff (regardless of
accept-failed); and when all asset scripts pass under accept-failed, a
negative-balance failure of the successful diff downgrades to the failed
diff instead of aborting. -/
theorem c3_exchange_script_failures (env : Env) (ds : List Nat) (tx : Tx)
    (info : FallibleValidationParams) (ht : tx.typ = TxType.exchange) :
    (∀ e, info.senderScripted = true → env.accountScriptErr = some e →
       (handleExchange env ds tx info).2 = Except.error e)
    ∧ (∀ e, info.senderScripted = false → env.features.smartAccountTrading = true →
         env.orderScripted 1 = true → env.orderScriptErr 1 = some e →
         (handleExchange env ds tx info).2
           = Except.error (Err.wrap e "script failure on first order"))
    ∧ (∀ e, info.senderScripted = false → env.features.smartAccountTrading = true →
         env.orderScripted 1 = false → env.orderScripted 2 = true →
         env.orderScriptErr 2 = some e →
         (handleExchange env ds tx info).2
           = Except.error (Err.wrap e "script failure on second order"))
    ∧ (∀ cd fc sc a rest e b,
         info.senderScripted = false → env.features.smartAccountTrading = false →
         env.checkTxResult = Except.ok cd → env.createFailedTransactionDiff = Except.ok fc →
         env.createTransactionDiff = Except.ok sc → cd.smartAssets = a :: rest →
         env.assetScript a = ⟨some e, b⟩ →
         (handleExchange env ds tx info).2
           = (if info.params.blockV5Activated && info.params.acceptFailed then
                Except.ok (newApplicationResult false
                  (countExchangeScriptsRuns env (0 + cd.smartAssets.length)) fc cd)
              else Except.error e))
    ∧ (∀ cd fc sc a rest,
         info.senderScripted = false → env.features.smartAccountTrading = false →
         env.checkTxResult = Except.ok cd → env.createFailedTransactionDiff = Except.ok fc →
         env.createTransactionDiff = Except.ok sc → cd.smartAssets = a :: rest →
         env.assetScript a = ⟨none, false⟩ →
         (handleExchange env ds tx info).2
           = Except.ok (newApplicationResult false
               (countExchangeScriptsRuns env (0 + cd.smartAssets.length)) fc cd))
    ∧ (∀ cd fc sc,
         info.senderScripted = false → env.features.smartAccountTrading = false →
         env.checkTxResult = Except.ok cd → env.createFailedTransactionDiff = Except.ok fc →
         env.createTransactionDiff = Except.ok sc →
         (∀ x ∈ cd.smartAssets, env.assetScript x = ⟨none, true⟩) →
         (info.params.blockV5Activated && info.params.acceptFailed) = true →
         (handleExchange env ds tx info).2
           = (match env.validateTxDiff sc.diff ds with
              | some _ => Except.ok (newApplicationResult false
                  (countExchangeScriptsRuns env (0 + cd.smartAssets.length)) fc cd)
              | none => Except.ok (newApplicationResult true
                  (countExchangeScriptsRuns env (0 + cd.smartAssets.length)) sc cd))) := by
  refine ⟨?_, ?_, ?_, ?_, ?_, ?_⟩
  · intro e hss hacc
    simp [handleExchange, ht, hss, hacc]
  · intro e hss htr ho1 he1
    simp [handleExchange, exchangeOrdersScripts, ht, hss, htr, ho1, he1]
  · intro e hss htr ho1 ho2 he2
    simp [handleExchange, exchangeOrdersScripts, ht, hss, htr, ho1, ho2, he2]
  · intro cd fc sc a rest e b hss htr hcd hfc hsc has hscript
    rw [handleExchange_simple env ds tx info cd fc sc ht hss htr hcd hfc hsc, has]
    unfold exchangeAssetsLoop
    rw [hscript]
    cases haf : info.params.blockV5Activated && info.params.acceptFailed <;>
      simp [haf, has]
  · intro cd fc sc a rest hss htr hcd hfc hsc has hscript
    rw [handleExchange_simple env ds tx info cd fc sc ht hss htr hcd hfc hsc, has]
    unfold exchangeAssetsLoop
    rw [hscript]
    cases haf : info.params.blockV5Activated && info.params.acceptFailed <;>
      simp [haf, has]
  · intro cd fc sc hss htr hcd hfc hsc hall haf
    rw [handleExchange_simple env ds tx info cd fc sc ht hss htr hcd hfc hsc, haf]
    rw [exchangeAssetsLoop_allPass_true env ds _ cd fc sc cd.smartAssets hall]

/-- Witness for C3 at a concrete input: an asset-script error with
accept-failed inactive hard-rejects the exchange. -/
theorem c3_witness :
    (handleExchange envC3err [] txExchange infoC3).2
      = Except.error (Err.emsg "asset script failure") := by
  have h := (c3_exchange_script_failures envC3err [] txExchange infoC3 rfl).2.2.2.1
    ⟨[7]⟩ ⟨1, []⟩ ⟨3, []⟩ 7 [] (Err.emsg "asset script failure") false
    rfl rfl rfl rfl rfl rfl rfl
  simpa [infoC3] using h

/-- Claim C7 counterexample: with Ride4DApps active and two smart assets,
the first asset script erroring under accept-failed, the committed failed
result reports two script runs while only one script call beyond the
structural checks actually executed — the reported count is not the number
of scripts run. -/
theorem c7_counterexample :
    handleExchange envC7 [] txExchange infoC7
      = ([Effect.calledAssetScript 5],
         Except.ok (newApplicationResult false 2 ⟨1, []⟩ ⟨[5, 6]⟩))
    ∧ envC7.features.ride4DApps = true
    ∧ ([Effect.calledAssetScript 5].filter Effect.isScriptCall).length = 1 :=
  ⟨rfl, rfl, rfl⟩

/-- Claim C7 (amended): before Ride4DApps activation the reported exchange
scripts-run count is zero regardless of how many scripts actually executed;
after activation the count is the pre-loop total (here, for a plain sender
with SmartAccountTrading off, the number of smart assets), which equals the
number of scripts actually executed when every asset script passes — but it
is fixed before the asset loop runs, so a mid-loop failure still reports
the full count. -/
theorem c7_exchange_runs (env : Env) (ds : List Nat) (tx : Tx)
    (info : FallibleValidationParams) :
    (env.features.ride4DApps = false → ∀ n, countExchangeScriptsRuns env n = 0)
    ∧ (∀ cd fc sc r, tx.typ = TxType.exchange → info.senderScripted = false →
         env.features.smartAccountTrading = false →
         env.checkTxResult = Except.ok cd → env.createFailedTransactionDiff = Except.ok fc →
         env.createTransactionDiff = Except.ok sc →
         env.features.ride4DApps = false →
         (handleExchange env ds tx info).2 = Except.ok r →
         r.totalScriptsRuns = 0)
    ∧ (∀ cd fc sc, tx.typ = TxType.exchange → info.senderScripted = false →
         env.features.smartAccountTrading = false →
         info.params.acceptFailed = false →
         env.checkTxResult = Except.ok cd → env.createFailedTransactionDiff = Except.ok fc →
         env.createTransactionDiff = Except.ok sc →
         (∀ x ∈ cd.smartAssets, env.assetScript x = ⟨none, true⟩) →
         handleExchange env ds tx info
           = (cd.smartAssets.map Effect.calledAssetScript,
              Except.ok (newApplicationResult true
                (countExchangeScriptsRuns env (0 + cd.smartAssets.length)) sc cd))
         ∧ (cd.smartAssets.map Effect.calledAssetScript).length
             = cd.smartAssets.length) := by
  refine ⟨?_, ?_, ?_⟩
  · intro hr n
    simp [countExchangeScriptsRuns, hr]
  · intro cd fc sc r ht hss htr hcd hfc hsc hr h
    rw [handleExchange_simple env ds tx info cd fc sc ht hss htr hcd hfc hsc] at h
    have := exchangeAssetsLoop_ok_runs env ds
      (info.params.blockV5Activated && info.params.acceptFailed)
      (countExchangeScriptsRuns env (0 + cd.smartAssets.length)) cd fc sc
      cd.smartAssets r h
    rw [this]
    simp [countExchangeScriptsRuns, hr]
  · intro cd fc sc ht hss htr haf hcd hfc hsc hall
    constructor
    · rw [handleExchange_simple env ds tx info cd fc sc ht hss htr hcd hfc hsc, haf]
      rw [Bool.and_false]
      exact exchangeAssetsLoop_allPass_false env ds _ cd fc sc cd.smartAssets hall
    · simp

/-- Witness for C7 at a concrete input: before Ride4DApps activation the
exchange scripts-run count collapses to zero. -/
theorem c7_witness : countExchangeScriptsRuns envDefault 5 = 0 :=
  (c7_exchange_runs envDefault [] txExchange infoC3).1 rfl 5

/-- Claim C10: `handleExchange` overrides accept-failed with
`blockV5Activated && acceptFailed`.  With BlockV5 inactive and the caller
requesting accept-failed, the fee-sufficiency precheck in `handleFallible`
still runs on the caller-supplied flag, yet `handleExchange` behaves
exactly as if accept-failed were off: an asset-script error is a hard
reject, and when all asset scripts pass the successful diff's
negative-balance check is skipped. -/
theorem c10_acceptFailed_override (env : Env) (ds : List Nat) (tx : Tx)
    (info : FallibleValidationParams) (fc : TxBalanceChanges)
    (hb : info.params.blockV5Activated = false)
    (ha : info.params.acceptFailed = true)
    (ht : tx.typ = TxType.exchange)
    (hfee : env.exchangeFeeValidationDiff = Except.ok fc) :
    Effect.validatedTxDiff ValidationSite.feeCheck fc.diff
        ∈ (handleFallible env ds tx info none).1
    ∧ handleExchange env ds tx info
        = handleExchange env ds tx
            { info with params := { info.params with acceptFailed := false } }
    ∧ (∀ cd fc2 sc a rest e b,
         info.senderScripted = false → env.features.smartAccountTrading = false →
         env.checkTxResult = Except.ok cd → env.createFailedTransactionDiff = Except.ok fc2 →
         env.createTransactionDiff = Except.ok sc → cd.smartAssets = a :: rest →
         env.assetScript a = ⟨some e, b⟩ →
         (handleExchange env ds tx info).2 = Except.error e)
    ∧ (∀ cd fc2 sc,
         info.senderScripted = false → env.features.smartAccountTrading = false →
         env.checkTxResult = Except.ok cd → env.createFailedTransactionDiff = Except.ok fc2 →
         env.createTransactionDiff = Except.ok sc →
         (∀ x ∈ cd.smartAssets, env.assetScript x = ⟨none, true⟩) →
         ∀ d, Effect.validatedTxDiff ValidationSite.fallibleSuccess d
           ∉ (handleExchange env ds tx info).1) := by
  have hfees : checkTxFees env ds tx
      = ([Effect.validatedTxDiff ValidationSite.feeCheck fc.diff],
         env.validateTxDiff fc.diff ds) := by
    simp [checkTxFees, ht, hfee]
  refine ⟨?_, ?_, ?_, ?_⟩
  · cases hv : env.validateTxDiff fc.diff ds with
    | some e => simp [handleFallible, ha, hfees, hv, ht]
    | none =>
      rcases hx : handleExchange env ds tx info with ⟨fx2, res2⟩
      cases res2 <;> simp [handleFallible, ha, hfees, hv, ht, hx]
  · simp [handleExchange, hb]
  · intro cd fc2 sc a rest e b hss htr hcd hfc2 hsc has hscript
    rw [handleExchange_simple env ds tx info cd fc2 sc ht hss htr hcd hfc2 hsc, has]
    unfold exchangeAssetsLoop
    rw [hscript]
    simp [hb]
  · intro cd fc2 sc hss htr hcd hfc2 hsc hall d
    rw [handleExchange_simple env ds tx info cd fc2 sc ht hss htr hcd hfc2 hsc]
    rw [hb, Bool.false_and]
    rw [exchangeAssetsLoop_allPass_false env ds _ cd fc2 sc cd.smartAssets hall]
    simp

/-- Witness for C10 at a concrete input: the fee precheck's validation
runs inside `handleFallible` although BlockV5 is inactive. -/
theorem c10_witness :
    Effect.validatedTxDiff ValidationSite.feeCheck 2
      ∈ (handleFallible envDefault [] txExchange infoC10 none).1 :=
  (c10_acceptFailed_override envDefault [] txExchange infoC10 ⟨2, []⟩ rfl rfl rfl rfl).1

/-- Helper: `commitTxApplication` only appends to the effect trace. -/
theorem commitTxApplication_trace_mono (env : Env) (tx : Tx) (params : AppendTxParams)
    (ir : Option InvocationResult) (ar : ApplicationResult) (st : St) (e : Effect)
    (he : e ∈ st.trace) :
    e ∈ ((commitTxApplication env tx params ir ar st).1).trace := by
  cases hs : ar.status <;> cases hp : env.performTxResult <;>
    cases hu : params.validatingUtx <;> cases hm : env.countMinerFeeResult <;>
      simp [commitTxApplication, hs, hp, hu, hm, he]

/-- Helper: `commitTxApplication` never emits an append-site diff
validation. -/
theorem commitTxApplication_no_append_validation (env : Env) (tx : Tx)
    (params : AppendTxParams) (ir : Option InvocationResult) (ar : ApplicationResult)
    (st : St) (d : Nat)
    (h : Effect.validatedTxDiff ValidationSite.append d
      ∈ ((commitTxApplication env tx params ir ar st).1).trace) :
    Effect.validatedTxDiff ValidationSite.append d ∈ st.trace := by
  cases hs : ar.status <;> cases hp : env.performTxResult <;>
    cases hu : params.validatingUtx <;> cases hm : env.countMinerFeeResult <;>
      simp [commitTxApplication, hs, hp, hu, hm] at h <;> exact h

/-- Helper: a successful pool-mode commit leaves the durable storage and
the miner-fee bookkeeping untouched and appends the transaction to the
in-memory pool storage. -/
theorem commitTxApplication_utx (env : Env) (tx : Tx) (params : AppendTxParams)
    (ir : Option InvocationResult) (ar : ApplicationResult) (st : St)
    (hu : params.validatingUtx = true)
    (hok : (commitTxApplication env tx params ir ar st).2 = Except.ok ()) :
    ((commitTxApplication env tx params ir ar st).1).durableTxs = st.durableTxs
    ∧ ((commitTxApplication env tx params ir ar st).1).blockDifferFees = st.blockDifferFees
    ∧ ((commitTxApplication env tx params ir ar st).1).memTxs
        = st.memTxs ++ [(tx.id, !ar.status)] := by
  cases hs : ar.status <;> cases hp : env.performTxResult <;>
    simp [commitTxApplication, hs, hp, hu] at hok ⊢

/-- Helper: the limits-and-commit tail only appends to the effect trace. -/
theorem appendTxLimitsAndCommit_trace_mono (env : Env) (tx : Tx) (params : AppendTxParams)
    (ir : Option InvocationResult) (ar : ApplicationResult) (st : St) (e : Effect)
    (he : e ∈ st.trace) :
    e ∈ ((appendTxLimitsAndCommit env tx params ir ar st).1).trace := by
  rcases hl : checkScriptsLimits env (st.totalComplexity + st.recentTxComplexity)
      (st.totalScriptsRuns + ar.totalScriptsRuns) with ⟨o, w⟩
  unfold appendTxLimitsAndCommit
  rw [hl]
  cases o with
  | some e2 => simpa using he
  | none =>
    cases w
    case false =>
      have hm := commitTxApplication_trace_mono env tx params ir ar st e he
      rcases hc : commitTxApplication env tx params ir ar st with ⟨st3, rc⟩
      rw [hc] at hm
      cases rc with
      | error e3 => simpa [hc] using hm
      | ok u =>
        by_cases hapi : params.validatingUtx = false ∧ env.buildApiData = true <;>
          simp [hc, hapi, saveTransactionIdByAddresses] <;> exact hm
    case true =>
      have he2 : e ∈ ({ st with trace := st.trace ++ [Effect.warnedScriptsLimits] } : St).trace := by
        simp [he]
      have hm := commitTxApplication_trace_mono env tx params ir ar
        { st with trace := st.trace ++ [Effect.warnedScriptsLimits] } e he2
      rcases hc : commitTxApplication env tx params ir ar
          { st with trace := st.trace ++ [Effect.warnedScriptsLimits] } with ⟨st3, rc⟩
      rw [hc] at hm
      cases rc with
      | error e3 => simpa [hc] using hm
      | ok u =>
        by_cases hapi : params.validatingUtx = false ∧ env.buildApiData = true <;>
          simp [hc, hapi, saveTransactionIdByAddresses] <;> exact hm

/-- Helper: the limits-and-commit tail never emits an append-site diff
validation. -/
theorem appendTxLimitsAndCommit_no_append_validation (env : Env) (tx : Tx)
    (params : AppendTxParams) (ir : Option InvocationResult) (ar : ApplicationResult)
    (st : St) (d : Nat)
    (h : Effect.validatedTxDiff ValidationSite.append d
      ∈ ((appendTxLimitsAndCommit env tx params ir ar st).1).trace) :
    Effect.validatedTxDiff ValidationSite.append d ∈ st.trace := by
  rcases hl : checkScriptsLimits env (st.totalComplexity + st.recentTxComplexity)
      (st.totalScriptsRuns + ar.totalScriptsRuns) with ⟨o, w⟩
  unfold appendTxLimitsAndCommit at h
  rw [hl] at h
  cases o with
  | some e2 => simpa using h
  | none =>
    cases w
    case false =>
      simp only [Bool.false_eq_true, if_false, if_true] at h
      rcases hc : commitTxApplication env tx params ir ar st with ⟨st3, rc⟩
      rw [hc] at h
      have h3 : Effect.validatedTxDiff ValidationSite.append d ∈ st3.trace := by
        cases rc with
        | error e3 => simpa using h
        | ok u =>
          by_cases hapi : params.validatingUtx = false ∧ env.buildApiData = true <;>
            simp [hapi, saveTransactionIdByAddresses] at h <;> exact h
      have := commitTxApplication_no_append_validation env tx params ir ar st d (by rw [hc]; exact h3)
      exact this
    case true =>
      simp only [Bool.false_eq_true, if_false, if_true] at h
      rcases hc : commitTxApplication env tx params ir ar
          { st with trace := st.trace ++ [Effect.warnedScriptsLimits] } with ⟨st3, rc⟩
      rw [hc] at h
      have h3 : Effect.validatedTxDiff ValidationSite.append d ∈ st3.trace := by
        cases rc with
        | error e3 => simpa using h
        | ok u =>
          by_cases hapi : params.validatingUtx = false ∧ env.buildApiData = true <;>
            simp [hapi, saveTransactionIdByAddresses] at h <;> exact h
      have := commitTxApplication_no_append_validation env tx params ir ar
        { st with trace := st.trace ++ [Effect.warnedScriptsLimits] } d (by rw [hc]; exact h3)
      simpa using this

/-- Helper: in pool mode a successful limits-and-commit tail leaves the
durable storage and miner-fee bookkeeping untouched and appends the
transaction to the in-memory pool storage. -/
theorem appendTxLimitsAndCommit_utx (env : Env) (tx : Tx) (params : AppendTxParams)
    (ir : Option InvocationResult) (ar : ApplicationResult) (st st' : St)
    (hu : params.validatingUtx = true)
    (h : appendTxLimitsAndCommit env tx params ir ar st = (st', Except.ok ())) :
    st'.durableTxs = st.durableTxs ∧ st'.blockDifferFees = st.blockDifferFees
    ∧ st'.memTxs = st.memTxs ++ [(tx.id, !ar.status)] := by
  rcases hl : checkScriptsLimits env (st.totalComplexity + st.recentTxComplexity)
      (st.totalScriptsRuns + ar.totalScriptsRuns) with ⟨o, w⟩
  unfold appendTxLimitsAndCommit at h
  rw [hl] at h
  cases o with
  | some e2 => simp at h
  | none =>
    have hapi : ¬(params.validatingUtx = false ∧ env.buildApiData = true) := by
      rw [hu]
      rintro ⟨hfalse, -⟩
      cases hfalse
    cases w
    case false =>
      simp only [Bool.false_eq_true, if_false, if_true] at h
      rcases hc : commitTxApplication env tx params ir ar st with ⟨st3, rc⟩
      rw [hc] at h
      cases rc with
      | error e3 => simp at h
      | ok u =>
        cases u
        simp [hapi] at h
        subst h
        have hcu := commitTxApplication_utx env tx params ir ar st hu (by rw [hc])
        rw [hc] at hcu
        simpa using hcu
    case true =>
      simp only [Bool.false_eq_true, if_false, if_true] at h
      rcases hc : commitTxApplication env tx params ir ar
          { st with trace := st.trace ++ [Effect.warnedScriptsLimits] } with ⟨st3, rc⟩
      rw [hc] at h
      cases rc with
      | error e3 => simp at h
      | ok u =>
        cases u
        simp [hapi] at h
        subst h
        have hcu := commitTxApplication_utx env tx params ir ar
          { st with trace := st.trace ++ [Effect.warnedScriptsLimits] } hu (by rw [hc])
        rw [hc] at hcu
        simpa using hcu

/-- Helper: in pool mode a successful `appendTxAfterDispatch` leaves the
durable storage and miner-fee bookkeeping untouched and appends the
transaction to the in-memory pool storage. -/
theorem appendTxAfterDispatch_utx (env : Env) (tx : Tx) (params : AppendTxParams)
    (ir : Option InvocationResult) (ar : ApplicationResult) (needV : Bool) (st st' : St)
    (hu : params.validatingUtx = true)
    (h : appendTxAfterDispatch env tx params ir ar needV st = (st', Except.ok ())) :
    st'.durableTxs = st.durableTxs ∧ st'.blockDifferFees = st.blockDifferFees
    ∧ st'.memTxs = st.memTxs ++ [(tx.id, !ar.status)] := by
  cases needV
  case false =>
    have heq : appendTxAfterDispatch env tx params ir ar false st
        = appendTxLimitsAndCommit env tx params ir ar st := by
      simp [appendTxAfterDispatch]
    rw [heq] at h
    exact appendTxLimitsAndCommit_utx env tx params ir ar st st' hu h
  case true =>
    cases hvd : env.validateTxDiff ar.changes.diff st.diffStor with
    | some e =>
      have heq : appendTxAfterDispatch env tx params ir ar true st
          = ({ st with trace := st.trace
                ++ [Effect.validatedTxDiff ValidationSite.append ar.changes.diff] },
             Except.error (Err.extend e "validate transaction diff")) := by
        simp [appendTxAfterDispatch, hvd]
      rw [heq] at h
      simp at h
    | none =>
      have heq : appendTxAfterDispatch env tx params ir ar true st
          = appendTxLimitsAndCommit env tx params ir ar
              { st with trace := st.trace
                ++ [Effect.validatedTxDiff ValidationSite.append ar.changes.diff] } := by
        simp [appendTxAfterDispatch, hvd]
      rw [heq] at h
      have := appendTxLimitsAndCommit_utx env tx params ir ar
        { st with trace := st.trace
            ++ [Effect.validatedTxDiff ValidationSite.append ar.changes.diff] } st' hu h
      simpa using this

/-- Helper: in pool mode a successful `appendTxCore` run leaves the durable
storage and miner-fee bookkeeping untouched and appends the transaction to
the in-memory pool storage. -/
theorem appendTxCore_utx (env : Env) (tx : Tx) (params : AppendTxParams) (st stc : St)
    (hu : params.validatingUtx = true)
    (h : appendTxCore env tx params st = (stc, Except.ok ())) :
    stc.durableTxs = st.durableTxs ∧ stc.blockDifferFees = st.blockDifferFees
    ∧ ∃ f, stc.memTxs = st.memTxs ++ [(tx.id, f)] := by
  unfold appendTxCore at h
  cases hp : checkProtobufVersion tx params.blockV5Activated with
  | some e => rw [hp] at h; simp at h
  | none =>
    rw [hp] at h
    cases hd : checkDuplicateTxIds env.settings (st.durableTxs.map Prod.fst) tx
        st.recentTxIds params.blockTimestamp with
    | some e => rw [hd] at h; simp at h
    | none =>
      rw [hd] at h
      cases hv : env.verifySigResult with
      | some e => rw [hv] at h; simp at h
      | none =>
        rw [hv] at h
        rcases hdp : appendTxDispatch env st.diffStor tx params env.accountHasVerifier
          with ⟨fx, dres⟩
        rw [hdp] at h
        cases dres with
        | error e => simp at h
        | ok triple =>
          rcases triple with ⟨ir, ar, needV⟩
          simp only [] at h
          have := appendTxAfterDispatch_utx env tx params ir ar needV
            { st with trace := st.trace ++ fx } stc hu h
          simp only [] at this
          exact ⟨this.1, this.2.1, ⟨!ar.status, this.2.2⟩⟩

/-- Claim C8: every error the dispatch core (`appendTx`) produces is
returned by `validateNextTx` wrapped as a non-fatal informational
rejection, and a successful pool validation writes the transaction only to
the in-memory pool storage — durable storage and the miner-fee bookkeeping
are untouched. -/
theorem c8_validateNextTx (env : Env) (tx : Tx) (currentTimestamp parentTimestamp : Nat)
    (acceptFailed : Bool) (st : St) :
    (∀ st1 e, appendTx env tx (validateNextTxParams env acceptFailed) st
          = (st1, Except.error e) →
       validateNextTx env tx currentTimestamp parentTimestamp acceptFailed st
          = (st1, Except.error (Err.info e)))
    ∧ (∀ st1, validateNextTx env tx currentTimestamp parentTimestamp acceptFailed st
          = (st1, Except.ok ()) →
        st1.durableTxs = st.durableTxs ∧ st1.blockDifferFees = st.blockDifferFees
        ∧ ∃ f, st1.memTxs = st.memTxs ++ [(tx.id, f)]) := by
  constructor
  · intro st1 e h
    unfold validateNextTx
    rw [h]
  · intro st1 h
    unfold validateNextTx at h
    rcases ha : appendTx env tx (validateNextTxParams env acceptFailed) st with ⟨stx, rx⟩
    rw [ha] at h
    cases rx with
    | error e => simp at h
    | ok u =>
      cases u
      simp at h
      subst h
      unfold appendTx at ha
      rcases hc : appendTxCore env tx (validateNextTxParams env acceptFailed) st
        with ⟨stc, rc⟩
      rw [hc] at ha
      simp only [] at ha
      have ha1 : ({ stc with recentTxComplexity := 0 } : St) = stx := congrArg Prod.fst ha
      have ha2 : rc = Except.ok () := congrArg Prod.snd ha
      rw [ha2] at hc
      have hcu := appendTxCore_utx env tx (validateNextTxParams env acceptFailed) st stc
        rfl hc
      rw [← ha1]
      simpa using hcu

/-- Witness for C8 at a concrete input: a protobuf transaction before
BlockV5 activation is rejected, and the rejection surfaces from
`validateNextTx` wrapped as an informational message. -/
theorem c8_witness :
    validateNextTx envDefault txProtobuf 0 0 false stEmpty
      = (stEmpty, Except.error (Err.info
          (Err.emsg "bad transaction version before blockV5 activation"))) :=
  (c8_validateNextTx envDefault txProtobuf 0 0 false stEmpty).1 stEmpty
    (Err.emsg "bad transaction version before blockV5 activation") rfl

/-- Claim C1 counterexample: a plain transfer appended in block mode
succeeds with NO negative-balance validation anywhere in its trace,
contradicting the claim that in block mode non-exchange/non-invoke kinds
are validated immediately. -/
theorem c1_counterexample :
    (appendTx envDefault txTransfer paramsBlock stEmpty).2 = Except.ok ()
    ∧ paramsBlock.validatingUtx = false
    ∧ txTransfer.typ = TxType.transfer
    ∧ ((appendTx envDefault txTransfer paramsBlock stEmpty).1).trace.all
        (fun e => !(Effect.isDiffValidation e)) = true :=
  ⟨rfl, rfl, rfl, rfl⟩

/-- Claim C1 (amended): the immediate negative-balance validation of the
resulting diff happens only in pool mode: the dispatch sets
`needToValidateBalanceDiff` to `validatingUtx && !acceptFailed` for invoke
kinds, and for exchange kinds to
`validatingUtx && !(blockV5Activated && acceptFailed)` — `handleExchange`
has overwritten the shared flag, so a pool-mode exchange with accept-failed
requested but BlockV5 inactive IS validated at the append level (its
fallible-path check having been skipped); the flag is `validatingUtx` for
default and Ethereum-transfer kinds, never set for an Ethereum invoke,
always false in block mode, and it exactly controls the append-level
validation call. -/
theorem c1_validation_timing (env : Env) (ds : List Nat) (tx : Tx)
    (params : AppendTxParams) (acct : Bool) :
    (∀ fx ir ar needV,
       appendTxDispatch env ds tx params acct = (fx, Except.ok (ir, ar, needV)) →
       (params.validatingUtx = false → needV = false)
       ∧ ((tx.typ = TxType.invokeScript ∨ tx.typ = TxType.invokeExpression) →
            needV = (params.validatingUtx && !params.acceptFailed))
       ∧ (tx.typ = TxType.exchange →
            needV = (params.validatingUtx
              && !(params.blockV5Activated && params.acceptFailed)))
       ∧ (tx.typ = TxType.ethereumMetamask →
            env.resolveEthKind = Except.ok EthKind.invoke → needV = false)
       ∧ (tx.typ = TxType.ethereumMetamask →
            (env.resolveEthKind = Except.ok EthKind.transferWaves
              ∨ env.resolveEthKind = Except.ok EthKind.transferAssets) →
            needV = params.validatingUtx)
       ∧ (tx.typ ≠ TxType.invokeScript → tx.typ ≠ TxType.invokeExpression →
            tx.typ ≠ TxType.exchange → tx.typ ≠ TxType.ethereumMetamask →
            needV = params.validatingUtx))
    ∧ (∀ ir ar st,
         Effect.validatedTxDiff ValidationSite.append ar.changes.diff
           ∈ ((appendTxAfterDispatch env tx params ir ar true st).1).trace)
    ∧ (∀ ir ar st d,
         Effect.validatedTxDiff ValidationSite.append d
             ∈ ((appendTxAfterDispatch env tx params ir ar false st).1).trace →
         Effect.validatedTxDiff ValidationSite.append d ∈ st.trace) := by
  refine ⟨?_, ?_, ?_⟩
  · intro fx ir ar needV h
    cases htyp : tx.typ <;>
      simp only [appendTxDispatch, htyp] at h <;>
      (repeat' split at h) <;> simp_all <;>
      (try (obtain ⟨-, -, -, h4⟩ := h; subst h4; rintro hvu; simp [hvu]))
  · intro ir ar st
    cases hv : env.validateTxDiff ar.changes.diff st.diffStor with
    | some e => simp [appendTxAfterDispatch, hv]
    | none =>
      have key := appendTxLimitsAndCommit_trace_mono env tx params ir ar
        { st with trace :=
            st.trace ++ [Effect.validatedTxDiff ValidationSite.append ar.changes.diff] }
        (Effect.validatedTxDiff ValidationSite.append ar.changes.diff) (by simp)
      simpa [appendTxAfterDispatch, hv] using key
  · intro ir ar st d h
    have h' : Effect.validatedTxDiff ValidationSite.append d
        ∈ ((appendTxLimitsAndCommit env tx params ir ar st).1).trace := by
      simpa [appendTxAfterDispatch] using h
    exact appendTxLimitsAndCommit_no_append_validation env tx params ir ar st d h'

/-- Witness for C1 at a concrete input: a pool-mode exchange whose caller
requested accept-failed while BlockV5 is inactive still gets the flag set
(the overridden flag is false), and the flag makes the append-level
validation effect appear. -/
theorem c1_witness :
    (true : Bool) = (paramsUtxAF.validatingUtx
        && !(paramsUtxAF.blockV5Activated && paramsUtxAF.acceptFailed))
    ∧ Effect.validatedTxDiff ValidationSite.append apFailed.changes.diff
        ∈ ((appendTxAfterDispatch envDefault txTransfer paramsUtx none apFailed
              true stEmpty).1).trace :=
  ⟨((c1_validation_timing envDefault [] txExchange paramsUtxAF false).1
      [Effect.validatedTxDiff ValidationSite.feeCheck 2] none apSuccess true rfl).2.2.1 rfl,
   (c1_validation_timing envDefault [] txTransfer paramsUtx false).2.1 none apFailed stEmpty⟩
